import Mathlib

/-
Shallow embedding of `scripts/build_db.py`, the synthetic sales-data
generator of this repository.

Python floats are modelled by exact rationals (`ℚ`) wherever the source
computation is ring arithmetic, and by real numbers (`ℝ`) in the
monthly-curve synthesizer, which composes transcendental functions
(exp, sin, fractional powers).  Every call into Python's `random`
module is modelled by an explicit parameter (a field of a "draws"
structure); theorems quantify over those parameters, constrained only
by what the corresponding `random.*` call can actually return when a
claim needs such a constraint.  A Python `None` (or empty) name is
modelled by the empty string, which is what the source's truthiness
tests (`if not platform_name:` etc.) treat identically.
-/

namespace BuildDb

/-- Python `int(x)` applied to a number: truncation toward zero. -/
def pyIntQ (q : ℚ) : ℤ := if 0 ≤ q then ⌊q⌋ else -⌊-q⌋

/-- Python `round(x)` to an integer: round half to even. -/
def pyRoundInt (q : ℚ) : ℤ :=
  let f := ⌊q⌋
  let r := q - f
  if r < 1/2 then f
  else if 1/2 < r then f + 1
  else if f % 2 = 0 then f else f + 1

/-- Python `round(x, 4)`: round to four decimal places, half to even. -/
def pyRound4 (q : ℚ) : ℚ := (pyRoundInt (q * 10000) : ℚ) / 10000

/-- Python `needle in hay` on strings: substring containment. -/
def strContains (hay needle : String) : Bool :=
  (List.range (hay.length + 1)).any (fun i => (hay.drop i).startsWith needle)

/-- `REGION_WEIGHTS` (build_db.py line 11): baseline national demand
share of each of the 8 Japanese regions, in source order. -/
def REGION_WEIGHTS : List (String × ℚ) :=
  [("Hokkaido", 0.04), ("Tohoku", 0.06), ("Kanto", 0.35), ("Chubu", 0.17),
   ("Kansai", 0.18), ("Chugoku", 0.06), ("Shikoku", 0.04), ("Kyushu", 0.10)]

/-- `list(base.keys())`: the 8 region names in source order. -/
def REGION_NAMES : List String := REGION_WEIGHTS.map Prod.fst

/-- `NINTENDO_PLATFORMS` (line 22). -/
def NINTENDO_PLATFORMS : List String :=
  ["NES", "SNES", "N64", "GC", "GAMECUBE", "WII", "WIIU", "SWITCH", "3DS", "DS"]

/-- `_is_nintendo_platform` (line 104); `None` is modelled by `""`. -/
def is_nintendo_platform (plat : String) : Bool :=
  if plat == "" then false else NINTENDO_PLATFORMS.contains plat.toUpper

/-- The repeated `_is_nintendo_platform(platform) or (publisher and
"nintendo" in publisher.lower())` test (lines 213 and 289). -/
def isNintendoTitle (plat pub : String) : Bool :=
  is_nintendo_platform plat || ((pub != "") && strContains pub.toLower "nintendo")

/-- One call's worth of random draws inside `region_weight_distribution`.
`pickMain` models `random.choice(candidates)`; `secOn` models the
`random.random() < 0.4` coin; `pickSec` models
`random.choice(secondary_choices)`; `weakPick` models
`random.sample(weak_candidates, k)`; the `f*` fields model the
`random.uniform` factors, one per region where the source draws inside
a loop (`fMain` from [2.0, 3.0], `fSec` from [1.3, 1.8], `fWeak` from
[0.3, 0.7], `fJitter` from [0.8, 1.2], `fNin` from [1.1, 1.3]). -/
structure RegRand where
  pickMain : List String → String
  secOn : Bool
  pickSec : List String → String
  fMain : ℚ
  fSec : ℚ
  weakPick : List String → List String
  fWeak : String → ℚ
  fJitter : String → ℚ
  fNin : String → ℚ

/-- The candidate pool built by `biased_candidates` (lines 243-263)
before the final `or`: each baseline region repeated
`max(1, int(weight * 100))` times, inflated with publisher and genre
favourites. -/
def candidatePool (genre pub : String) : List String :=
  let base := (REGION_WEIGHTS.map
    (fun p => List.replicate (max 1 (pyIntQ (p.2 * 100)).toNat) p.1)).flatten
  let pk := pub.toLower
  let pubPool :=
    (if strContains pk "nintendo" then
      List.replicate 40 "Kanto" ++ List.replicate 35 "Kansai" else []) ++
    (if strContains pk "sony" then List.replicate 30 "Kanto" else [])
  let gk := genre.trim
  let genrePool :=
    if gk == "Racing" then List.replicate 25 "Kanto" ++ List.replicate 20 "Chubu"
    else if gk == "Role-Playing" then List.replicate 30 "Kanto"
    else if gk == "Sports" then List.replicate 35 "Kansai"
    else if gk == "Shooter" then List.replicate 20 "Kyushu" ++ List.replicate 15 "Kanto"
    else if gk == "Platform" then List.replicate 25 "Kansai" ++ List.replicate 15 "Chubu"
    else []
  base ++ pubPool ++ genrePool

/-- `biased_candidates` (line 242): the pool, with the
`return candidates or regions` fallback of line 265. -/
def biasedCandidates (genre pub : String) : List String :=
  let candidates := candidatePool genre pub
  if candidates.isEmpty then REGION_NAMES else candidates

/-- `adjusted[k] *= f` on the association-list model of the dict. -/
def updateW (l : List (String × ℚ)) (k : String) (f : ℚ) : List (String × ℚ) :=
  l.map (fun p => if p.1 = k then (p.1, p.2 * f) else p)

/-- Membership of `r` in the set `{main_region, secondary_region}`. -/
def inMS (mainR : String) (secR : Option String) (r : String) : Bool :=
  r == mainR || secR == some r

/-- Lines 277-278: `if secondary_region: adjusted[secondary_region] *= f`. -/
def applySecondary (l : List (String × ℚ)) (secR : Option String) (f : ℚ) :
    List (String × ℚ) :=
  match secR with
  | some s => updateW l s f
  | none => l

/-- The weak-region suppression loop (lines 280-283). -/
def applyWeak (wp : List String) (fW : String → ℚ) (l : List (String × ℚ)) :
    List (String × ℚ) :=
  l.map (fun p => if wp.contains p.1 then (p.1, p.2 * fW p.1) else p)

/-- The mild-jitter loop over the untouched regions (lines 285-287). -/
def applyJitter (wp : List String) (mainR : String) (secR : Option String)
    (fJ : String → ℚ) (l : List (String × ℚ)) : List (String × ℚ) :=
  l.map (fun p =>
    if !(wp.contains p.1) && !(inMS mainR secR p.1) then (p.1, p.2 * fJ p.1) else p)

/-- The Nintendo home-region boost (lines 289-295). -/
def applyNin (isNin : Bool) (fN : String → ℚ) (l : List (String × ℚ)) :
    List (String × ℚ) :=
  if isNin then
    l.map (fun p =>
      if p.1 == "Kanto" || p.1 == "Kansai" then (p.1, p.2 * fN p.1)
      else (p.1, p.2 * 0.9))
  else l

/-- Body of `region_weight_distribution` (line 231) up to and including
the Nintendo home-region boost: the `adjusted` weight map just before
normalisation (the dict comprehension building `final` re-lists the
same keys in the same order, so `final` is `adjusted` itself). -/
def regionAdjusted (R : RegRand) (plat genre pub : String) : List (String × ℚ) :=
  let candidates := biasedCandidates genre pub
  let mainR := R.pickMain candidates
  let secR : Option String :=
    if R.secOn then
      let choices := REGION_NAMES.filter (fun r => r != mainR)
      if choices.isEmpty then none else some (R.pickSec choices)
    else none
  let weakCands := REGION_NAMES.filter (fun r => !(inMS mainR secR r))
  let wp := R.weakPick weakCands
  applyNin (isNintendoTitle plat pub) R.fNin
    (applyJitter wp mainR secR R.fJitter
      (applyWeak wp R.fWeak
        (applySecondary (updateW REGION_WEIGHTS mainR R.fMain) secR R.fSec)))

/-- `region_weight_distribution` (line 231): normalise `adjusted`, or
return the baseline unchanged when the total is not positive. -/
def region_weight_distribution (R : RegRand) (plat genre pub : String) :
    List (String × ℚ) :=
  let final := regionAdjusted R plat genre pub
  let total := (final.map Prod.snd).sum
  if total ≤ 0 then REGION_WEIGHTS
  else final.map (fun p => (p.1, p.2 / total))

/-- `base_price_for_platform` (line 305). -/
def base_price_for_platform (plat : String) : ℤ :=
  let p := plat.toUpper
  if ["WII", "NES", "SNES", "N64", "GC", "PS", "PS2", "PS3", "PS4",
      "X360", "XB", "XONE"].contains p then 6800
  else if ["GB", "GBA", "DS", "3DS", "PSP", "PSV"].contains p then 4800
  else if ["PC"].contains p then 5980
  else 6000

/-- `price_for_game` (line 325); `noise` models `random.uniform(0.9, 1.1)`. -/
def price_for_game (noise : ℚ) (plat genre : String) : ℤ :=
  let basePrice := base_price_for_platform plat
  let factor : ℚ :=
    if genre == "Role-Playing" then 1.3
    else if genre == "Simulation" then 1.15
    else if genre == "Action" then 1.1
    else if genre == "Shooter" then 1.1
    else if genre == "Sports" then 0.95
    else if genre == "Racing" then 0.95
    else if genre == "Misc" then 0.85
    else 1
  let price := pyIntQ ((basePrice : ℚ) * factor * noise)
  pyRoundInt ((price : ℚ) / 100) * 100

/-- `month_price_factor` (line 345). -/
def month_price_factor (monthIndex totalMonths : ℕ) : ℚ :=
  if totalMonths ≤ 1 then 1
  else 1.1 - 0.5 * ((monthIndex : ℚ) / ((totalMonths : ℚ) - 1))

/-- `_month_from_ym` (line 89): `int(ym.split("-")[1])`.  All labels fed
to it by `build_from_csv` have the well-formed "YYYY-MM" shape, so the
`int()` failure path is never reached; a malformed label is mapped to 0
here instead of raising. -/
def month_from_ym (ym : String) : ℕ :=
  (((ym.splitOn "-").getD 1 "").toNat?).getD 0

/-- `BASE_SEASONALITY` (line 37). -/
noncomputable def BASE_SEASONALITY : List (ℕ × ℝ) :=
  [(1, 0.9), (2, 0.85), (3, 0.95), (4, 1.00), (5, 1.05), (6, 1.10),
   (7, 1.20), (8, 1.15), (9, 1.05), (10, 1.10), (11, 1.25), (12, 1.40)]

/-- `GENRE_PEAK_MONTH` (line 53). -/
def GENRE_PEAK_MONTH : List (String × ℕ) :=
  [("Sports", 9), ("Racing", 6), ("Shooter", 11), ("Action", 11),
   ("Fighting", 7), ("Role-Playing", 2), ("Simulation", 4),
   ("Platform", 10), ("Misc", 5)]

/-- `PUBLISHER_PEAK_MONTH` (line 66). -/
def PUBLISHER_PEAK_MONTH : List (String × ℕ) :=
  [("Nintendo", 11), ("Sony", 3), ("Square", 12), ("Namco", 7),
   ("Capcom", 2), ("Ubisoft", 10)]

/-- The three lifecycle profiles of `generate_monthly_pattern`
(line 142), identified by their `name` field. -/
inductive Lifecycle
  | front
  | slow
  | long

/-- The `bias` lambda of each lifecycle profile (lines 147, 153, 159). -/
noncomputable def lifecycleBias : Lifecycle → ℕ → ℕ → ℝ
  | .front, idx, n => 1.25 - 0.8 * ((idx : ℝ) / ((max 1 (n - 1) : ℕ) : ℝ))
  | .slow, idx, n => 0.75 + 0.9 * ((idx : ℝ) / ((max 1 (n - 1) : ℕ) : ℝ))
  | .long, idx, n =>
      0.9 + 0.2 * Real.sin (((idx : ℝ) / ((max 1 (n - 1) : ℕ) : ℝ)) * Real.pi)

/-- One call's worth of random draws inside `generate_monthly_pattern`.
`chooseFav` models `random.choice(fav_months)`; `randMonth` models the
`random.randint(1, 12)` fallback; `chooseIdx` models
`random.choice(candidate_indices)`; `randIdx` models
`random.randint(0, num_months - 1)`; `profile` the choice among the
three lifecycle profiles; `mainDecay`/`mainStrength` the uniform draws
from the profile's `decay_range`/`main_strength`; `hasSecondary` the
`random.random() < 0.4` coin; `secDiv` the `random.randint(4, 6)`;
`secDirNeg` the `random.choice([-1, 1])`; `secDecay`/`secStrength` the
uniform draws from [3.0, 6.5] and [0.5, 1.0]; `gamma i a` the
`random.gammavariate(a, 1.0)` sample of month index `i` (always
non-negative); `jitter i` the per-index `random.uniform(0.9, 1.05)`. -/
structure CurveRand where
  chooseFav : List ℕ → ℕ
  randMonth : ℕ
  chooseIdx : List ℕ → ℕ
  randIdx : ℕ
  profile : Lifecycle
  mainDecay : ℝ
  mainStrength : ℝ
  hasSecondary : Bool
  secDiv : ℕ
  secDirNeg : Bool
  secDecay : ℝ
  secStrength : ℝ
  gamma : ℕ → ℝ → ℝ
  jitter : ℕ → ℝ

/-- The `fav_months` list (lines 121-131): genre peak month by exact
lookup after `strip()`, then the first publisher whose key is a
case-insensitive substring of the publisher name. -/
def favMonths (genre pub : String) : List ℕ :=
  (if genre != "" then
    match GENRE_PEAK_MONTH.lookup genre.trim with
    | some m => [m]
    | none => []
  else []) ++
  (if pub != "" then
    match PUBLISHER_PEAK_MONTH.find? (fun p => strContains pub.toLower p.1.toLower) with
    | some p => [p.2]
    | none => []
  else [])

/-- `target_month` (lines 132-135): the favourite-month choice, with the
`random.randint(1, 12)` fallback when no favourite is configured. -/
def targetMonth (C : CurveRand) (genre pub : String) : ℕ :=
  let fav := favMonths genre pub
  C.chooseFav (if fav.isEmpty then [C.randMonth] else fav)

/-- `candidate_indices` (line 136): indices whose calendar month equals
the target month. -/
def candidateIdxs (months : List String) (target : ℕ) : List ℕ :=
  ((months.enum).filter (fun p => month_from_ym p.2 == target)).map Prod.fst

/-- `main_idx` (line 140). -/
def mainIdxOf (C : CurveRand) (months : List String) (genre pub : String) : ℕ :=
  let cand := candidateIdxs months (targetMonth C genre pub)
  if cand.isEmpty then C.randIdx else C.chooseIdx cand

/-- `secondary_idx` (lines 166-176): present only when the 40% coin hit,
offset from `main_idx` by `max(1, n // randint(4, 6))` in a random
direction, clamped into [0, n-1]. -/
def secondaryIdx (C : CurveRand) (n mainIdx : ℕ) : Option ℤ :=
  if C.hasSecondary then
    let offset : ℕ := max 1 (n / C.secDiv)
    let dir : ℤ := if C.secDirNeg then -1 else 1
    some (min (max ((mainIdx : ℤ) + dir * (offset : ℤ)) 0) ((n : ℤ) - 1))
  else none

/-- `peak_value` (line 178): super-Gaussian falloff from a peak center,
zero when there is no peak. -/
noncomputable def peak_value (i : ℕ) (center : Option ℤ) (decay : Option ℝ) : ℝ :=
  match center, decay with
  | some c, some d =>
      Real.exp (-((((|(i : ℤ) - c| : ℤ) : ℝ) / max 1e-3 d) ^ (1.3 : ℝ)))
  | _, _ => 0

/-- The Gamma-sampled raw series (lines 183-193): for each index the
shape `alpha` is composed from seasonality, the peak components, the
lifecycle bias (floored at 0.2), a multiplicative jitter, and a final
floor at 0.15, and the sample is drawn with that shape. -/
noncomputable def rawSamples (C : CurveRand) (months : List String)
    (genre pub : String) : List ℝ :=
  let n := months.length
  let mi := mainIdxOf C months genre pub
  let sIdx := secondaryIdx C n mi
  let sDecay : Option ℝ := if C.hasSecondary then some C.secDecay else none
  let sStrength : ℝ := if C.hasSecondary then C.secStrength else 0
  (List.range n).map (fun idx =>
    let seas := (BASE_SEASONALITY.lookup (month_from_ym (months.getD idx ""))).getD 1.0
    let mainComponent := peak_value idx (some (mi : ℤ)) (some C.mainDecay)
    let secComponent := peak_value idx sIdx sDecay
    let bias := max 0.2 (lifecycleBias C.profile idx n)
    let alpha := seas * (0.6 + C.mainStrength * mainComponent + sStrength * secComponent)
    let alpha := alpha * (bias * C.jitter idx)
    C.gamma idx (max 0.15 alpha))

/-- The 1:2:1 moving average (lines 196-201), edges clamped by
repeating the edge value. -/
noncomputable def smooth3 (s : List ℝ) : List ℝ :=
  (List.range s.length).map (fun i =>
    let left := if 0 < i then s.getD (i - 1) 0 else s.getD i 0
    let mid := s.getD i 0
    let right := if i + 1 < s.length then s.getD (i + 1) 0 else s.getD i 0
    (left + 2 * mid + right) / 4)

/-- The dynamic-range compression (lines 203-211): pull each value's
ratio to the mean toward 1 with a 0.75 power. -/
noncomputable def compress (s : List ℝ) : List ℝ :=
  let avg : ℝ := if s.length ≠ 0 then s.sum / (s.length : ℝ) else 0
  s.map (fun v => if avg ≤ 0 then v else avg * (v / avg) ^ ((0.75 : ℝ)))

/-- The fixed end-of-year multiplier schedule (lines 214-223) applied to
Nintendo-class titles. -/
noncomputable def ninMonthFactor (m : ℕ) : ℝ :=
  if m = 10 then 1.2 else if m = 11 then 1.5 else if m = 12 then 1.8 else 0.8

/-- Lines 213-223: the month-indexed boost, applied only for
Nintendo-class titles. -/
noncomputable def nintendoBoost (months : List String) (s : List ℝ) : List ℝ :=
  (months.zip s).map (fun p => p.2 * ninMonthFactor (month_from_ym p.1))

/-- The composed signal of `generate_monthly_pattern` just before
normalisation (the `compressed` list after the optional Nintendo
boost). -/
noncomputable def curveBoosted (C : CurveRand) (months : List String)
    (genre pub plat : String) : List ℝ :=
  let compressed := compress (smooth3 (rawSamples C months genre pub))
  if isNintendoTitle plat pub then nintendoBoost months compressed else compressed

/-- `generate_monthly_pattern` (line 111): empty input gives an empty
output, a non-positive total gives the flat distribution, otherwise the
composed signal is normalised to sum 1. -/
noncomputable def generate_monthly_pattern (C : CurveRand) (months : List String)
    (genre pub plat : String) : List ℝ :=
  let n := months.length
  if n = 0 then []
  else
    let compressed := curveBoosted C months genre pub plat
    let total := compressed.sum
    if total ≤ 0 then List.replicate n ((1 : ℝ) / (n : ℝ))
    else compressed.map (fun v => v / total)

/-- Python `int(x)` on a real value: truncation toward zero. -/
noncomputable def pyIntR (x : ℝ) : ℤ := if 0 ≤ x then ⌊x⌋ else -⌊-x⌋

/-- One row of the lifetime `SALE` table (game/platform dimension ids
omitted: they are bookkeeping, constant over the claims below). -/
structure LifeRow where
  region : String
  salesMillion : ℚ
  units : ℤ
  revenue : ℤ
deriving DecidableEq

/-- One row of the `SaleMonthly` table. -/
structure MonthRow where
  ym : String
  units : ℤ
  revenue : ℤ

/-- The lifetime half of the region loop of `build_from_csv`
(lines 550-578): per region, millions are rounded to 4 decimals, units
truncated, and a row is emitted only when units are positive. -/
def lifetimeRows (baseM : ℚ) (price : ℤ) (dist : List (String × ℚ)) : List LifeRow :=
  dist.filterMap (fun p =>
    let m := pyRound4 (baseM * p.2)
    let u := pyIntQ (m * 1000000)
    if u ≤ 0 then none else some ⟨p.1, m, u, u * price⟩)

/-- The monthly loop of `build_from_csv` (lines 589-615), rendered as
structural recursion over `zip(months, monthly_weights)` with the
running `enumerate` index and the full window length carried along:
units are `int(region_units * w)`, months with non-positive units are
skipped, and revenue uses the discounted month price. -/
noncomputable def monthlyRowsFrom (u price : ℤ) (totalMonths : ℕ) :
    ℕ → List String → List ℝ → List MonthRow
  | _, [], _ => []
  | _, _ :: _, [] => []
  | idx, ym :: ms, w :: ws =>
    let mu := pyIntR ((u : ℝ) * w)
    let rest := monthlyRowsFrom u price totalMonths (idx + 1) ms ws
    if mu ≤ 0 then rest
    else ⟨ym, mu, mu * pyIntQ ((price : ℚ) * month_price_factor idx totalMonths)⟩ :: rest

/-- The monthly loop started at index 0 with `total_months = len(months)`. -/
noncomputable def monthlyRows (u price : ℤ) (months : List String) (ws : List ℝ) :
    List MonthRow :=
  monthlyRowsFrom u price months.length 0 months ws

/-- The full region loop (lines 550-615): for each surviving region one
lifetime row plus its monthly split.  `pattern r` is the per-region
monthly weight list (the source calls `generate_monthly_pattern` afresh
inside the loop; `titleFacts` below instantiates `pattern` with exactly
that call). -/
noncomputable def regionFacts (pattern : String → List ℝ) (baseM : ℚ) (price : ℤ)
    (months : List String) : List (String × ℚ) → List LifeRow × List MonthRow
  | [] => ([], [])
  | p :: rest =>
    let acc := regionFacts pattern baseM price months rest
    let m := pyRound4 (baseM * p.2)
    let u := pyIntQ (m * 1000000)
    if u ≤ 0 then acc
    else (⟨p.1, m, u, u * price⟩ :: acc.1,
          monthlyRows u price months (pattern p.1) ++ acc.2)

/-- A sales figure field of a seed row as `parse_float` sees it: the key
may be missing (`row.get` then supplies the float `0.0`), the string may
fail to parse (`float(v)` raises, caught by `parse_float`), or it
parses to a number. -/
inductive SalesField
  | missing
  | malformed (s : String)
  | val (q : ℚ)

/-- `parse_float` (line 97): `float(v)`, with `TypeError`/`ValueError`
mapped to `0.0`. -/
def parse_float : SalesField → ℚ
  | .missing => 0
  | .malformed _ => 0
  | .val q => q

/-- The `Year` field: `int(row["Year"])` (line 486) either parses or
raises `ValueError`, aborting the batch. -/
inductive YearField
  | malformed
  | val (y : ℤ)

/-- `int(row["Year"])`: the uncaught-exception path is an `Except.error`. -/
def parseYear : YearField → Except String ℤ
  | .malformed => .error "ValueError"
  | .val y => .ok y

/-- One row of the seed CSV, restricted to the fields the pipeline
reads. -/
structure SeedRow where
  name : String
  platform : String
  year : YearField
  genre : String
  publisher : String
  jp : SalesField
  globalSales : SalesField

/-- Lines 534-536: `jp_sales if jp_sales > 0 else global_sales`. -/
def resolveBase (jp glob : ℚ) : ℚ := if 0 < jp then jp else glob

/-- The per-title random draws of one `build_from_csv` loop iteration:
the price noise, the two possible Nintendo volume adjustments
(`random.uniform(1.55, 1.7)` for genre Platform, `random.uniform(0.88,
0.95)` otherwise), the region-sampler draws, and one curve-synthesizer
draw per region. -/
structure TitleRand where
  priceNoise : ℚ
  adjPlat : ℚ
  adjOther : ℚ
  reg : RegRand
  curve : String → CurveRand

/-- One iteration of the row loop of `build_from_csv` (lines 483-615),
with the dimension-table bookkeeping omitted: parse the year (a
malformed year raises and aborts), derive the price, resolve the base
national volume with the JP→Global fallback, skip the title when it is
non-positive, apply the Nintendo volume adjustment, sample the region
weights and emit the fact rows. -/
noncomputable def titleFacts (T : TitleRand) (months : List String) (row : SeedRow) :
    Except String (List LifeRow × List MonthRow) :=
  match parseYear row.year with
  | .error e => .error e
  | .ok _ =>
    let price := price_for_game T.priceNoise row.platform row.genre
    let jp := parse_float row.jp
    let glob := parse_float row.globalSales
    let baseJapanM := resolveBase jp glob
    if baseJapanM ≤ 0 then .ok ([], [])
    else
      let baseJapanM :=
        if row.publisher == "Nintendo" then
          if row.genre == "Platform" then baseJapanM * T.adjPlat
          else baseJapanM * T.adjOther
        else baseJapanM
      let dist := region_weight_distribution T.reg row.platform row.genre row.publisher
      .ok (regionFacts
        (fun r => generate_monthly_pattern (T.curve r) months row.genre row.publisher
          row.platform)
        baseJapanM price months dist)

/-- A concrete instance of the region-sampler draws, every factor inside
its `random.uniform` range: main region Kanto with factor 2.5, no
secondary region, Hokkaido suppressed with factor 0.5, jitter factor
exactly 1 for the untouched regions. -/
def cexReg : RegRand where
  pickMain := fun _ => "Kanto"
  secOn := false
  pickSec := fun l => l.headD ""
  fMain := 5/2
  fSec := 3/2
  weakPick := fun _ => ["Hokkaido"]
  fWeak := fun _ => 1/2
  fJitter := fun _ => 1
  fNin := fun _ => 6/5

/-- A concrete instance of the curve-synthesizer draws with constant
Gamma samples. -/
noncomputable def witCurve : CurveRand where
  chooseFav := fun l => l.headD 1
  randMonth := 1
  chooseIdx := fun l => l.headD 0
  randIdx := 0
  profile := .front
  mainDecay := 3
  mainStrength := 3/2
  hasSecondary := false
  secDiv := 4
  secDirNeg := false
  secDecay := 4
  secStrength := 1/2
  gamma := fun _ _ => 1
  jitter := fun _ => 1

/-- A concrete instance of the per-title draws. -/
noncomputable def witTitle : TitleRand where
  priceNoise := 1
  adjPlat := 8/5
  adjOther := 9/10
  reg := cexReg
  curve := fun _ => witCurve

/-- The normalised weight map `region_weight_distribution` returns for
the draws `cexReg` (computed below in `cex_dist_eq`). -/
def cexDist : List (String × ℚ) :=
  [("Hokkaido", 4/301), ("Tohoku", 12/301), ("Kanto", 175/301), ("Chubu", 34/301),
   ("Kansai", 36/301), ("Chugoku", 12/301), ("Shikoku", 8/301), ("Kyushu", 20/301)]

/-- A seed row whose resolved base volume is non-positive (JP figure 0,
global figure negative). -/
def cexRow : SeedRow :=
  ⟨"Some Game", "PS2", .val 2006, "Misc", "Sega", .val 0, .val (-1)⟩

/-- A seed row with a well-formed year but a malformed JP-sales string
and a missing global-sales key. -/
def malRow : SeedRow :=
  ⟨"Some Game", "PS2", .val 2001, "Misc", "Sega", .malformed "N/A", .missing⟩

/-- A seed row with a malformed year field. -/
def badYearRow : SeedRow :=
  ⟨"Some Game", "PS2", .malformed, "Misc", "Sega", .val 1, .val 1⟩

lemma sum_map_div {K : Type} [DivisionRing K] (l : List K) (t : K) :
    (l.map (fun v => v / t)).sum = l.sum / t := by
  induction l with
  | nil => simp
  | cons a l ih => simp [ih, add_div]

lemma vals_nonneg_map {l : List (String × ℚ)} {F : String × ℚ → String × ℚ}
    (hF : ∀ p : String × ℚ, 0 ≤ p.2 → 0 ≤ (F p).2)
    (h : ∀ p ∈ l, 0 ≤ p.2) : ∀ p ∈ l.map F, 0 ≤ p.2 := by
  intro p hp
  rcases List.mem_map.1 hp with ⟨q, hq, rfl⟩
  exact hF q (h q hq)

lemma REGION_WEIGHTS_vals_nonneg : ∀ p ∈ REGION_WEIGHTS, 0 ≤ p.2 := by
  intro p hp
  simp only [REGION_WEIGHTS, List.mem_cons, List.not_mem_nil, or_false] at hp
  rcases hp with rfl | rfl | rfl | rfl | rfl | rfl | rfl | rfl <;> norm_num

lemma REGION_WEIGHTS_sum : (REGION_WEIGHTS.map Prod.snd).sum = 1 := by
  simp only [REGION_WEIGHTS, List.map_cons, List.map_nil, List.sum_cons, List.sum_nil]
  norm_num

lemma keys_map_fst {l : List (String × ℚ)} {F : String × ℚ → String × ℚ}
    (hF : ∀ p ∈ l, (F p).1 = p.1) :
    (l.map F).map Prod.fst = l.map Prod.fst := by
  rw [List.map_map]
  exact List.map_congr_left (fun a ha => hF a ha)

lemma updateW_vals_nonneg {l : List (String × ℚ)} {k : String} {f : ℚ}
    (hf : 0 ≤ f) (h : ∀ p ∈ l, 0 ≤ p.2) : ∀ p ∈ updateW l k f, 0 ≤ p.2 := by
  refine vals_nonneg_map ?_ h
  intro p hp
  dsimp only
  split_ifs
  · exact mul_nonneg hp hf
  · exact hp

lemma applySecondary_vals_nonneg {l : List (String × ℚ)} {secR : Option String} {f : ℚ}
    (hf : 0 ≤ f) (h : ∀ p ∈ l, 0 ≤ p.2) : ∀ p ∈ applySecondary l secR f, 0 ≤ p.2 := by
  cases secR with
  | some s => exact updateW_vals_nonneg hf h
  | none => exact h

lemma applyWeak_vals_nonneg {wp : List String} {fW : String → ℚ} {l : List (String × ℚ)}
    (hf : ∀ r, 0 ≤ fW r) (h : ∀ p ∈ l, 0 ≤ p.2) : ∀ p ∈ applyWeak wp fW l, 0 ≤ p.2 := by
  refine vals_nonneg_map ?_ h
  intro p hp
  dsimp only
  split_ifs
  · exact mul_nonneg hp (hf _)
  · exact hp

lemma applyJitter_vals_nonneg {wp : List String} {mainR : String} {secR : Option String}
    {fJ : String → ℚ} {l : List (String × ℚ)}
    (hf : ∀ r, 0 ≤ fJ r) (h : ∀ p ∈ l, 0 ≤ p.2) :
    ∀ p ∈ applyJitter wp mainR secR fJ l, 0 ≤ p.2 := by
  refine vals_nonneg_map ?_ h
  intro p hp
  dsimp only
  split_ifs
  · exact mul_nonneg hp (hf _)
  · exact hp

lemma applyNin_vals_nonneg {isNin : Bool} {fN : String → ℚ} {l : List (String × ℚ)}
    (hf : ∀ r, 0 ≤ fN r) (h : ∀ p ∈ l, 0 ≤ p.2) : ∀ p ∈ applyNin isNin fN l, 0 ≤ p.2 := by
  cases isNin with
  | false => exact h
  | true =>
    refine vals_nonneg_map ?_ h
    intro p hp
    dsimp only
    split_ifs
    · exact mul_nonneg hp (hf _)
    · exact mul_nonneg hp (by norm_num)

lemma regionAdjusted_vals_nonneg (R : RegRand) (plat genre pub : String)
    (hMain : 0 ≤ R.fMain) (hSec : 0 ≤ R.fSec) (hWeak : ∀ r, 0 ≤ R.fWeak r)
    (hJit : ∀ r, 0 ≤ R.fJitter r) (hNin : ∀ r, 0 ≤ R.fNin r) :
    ∀ p ∈ regionAdjusted R plat genre pub, 0 ≤ p.2 := by
  simp only [regionAdjusted]
  exact applyNin_vals_nonneg hNin (applyJitter_vals_nonneg hJit
    (applyWeak_vals_nonneg hWeak (applySecondary_vals_nonneg hSec
      (updateW_vals_nonneg hMain REGION_WEIGHTS_vals_nonneg))))

lemma updateW_keys (l : List (String × ℚ)) (k : String) (f : ℚ) :
    (updateW l k f).map Prod.fst = l.map Prod.fst := by
  refine keys_map_fst ?_
  intro p _
  dsimp only
  split_ifs <;> rfl

lemma applySecondary_keys (l : List (String × ℚ)) (secR : Option String) (f : ℚ) :
    (applySecondary l secR f).map Prod.fst = l.map Prod.fst := by
  cases secR with
  | some s => exact updateW_keys l s f
  | none => rfl

lemma applyWeak_keys (wp : List String) (fW : String → ℚ) (l : List (String × ℚ)) :
    (applyWeak wp fW l).map Prod.fst = l.map Prod.fst := by
  refine keys_map_fst ?_
  intro p _
  dsimp only
  split_ifs <;> rfl

lemma applyJitter_keys (wp : List String) (mainR : String) (secR : Option String)
    (fJ : String → ℚ) (l : List (String × ℚ)) :
    (applyJitter wp mainR secR fJ l).map Prod.fst = l.map Prod.fst := by
  refine keys_map_fst ?_
  intro p _
  dsimp only
  split_ifs <;> rfl

lemma applyNin_keys (isNin : Bool) (fN : String → ℚ) (l : List (String × ℚ)) :
    (applyNin isNin fN l).map Prod.fst = l.map Prod.fst := by
  cases isNin with
  | false => rfl
  | true =>
    refine keys_map_fst ?_
    intro p _
    dsimp only
    split_ifs <;> rfl

lemma regionAdjusted_keys (R : RegRand) (plat genre pub : String) :
    (regionAdjusted R plat genre pub).map Prod.fst = REGION_NAMES := by
  simp only [regionAdjusted]
  rw [applyNin_keys, applyJitter_keys, applyWeak_keys, applySecondary_keys, updateW_keys]
  rfl

lemma region_dist_keys (R : RegRand) (plat genre pub : String) :
    (region_weight_distribution R plat genre pub).map Prod.fst = REGION_NAMES := by
  simp only [region_weight_distribution]
  split
  · rfl
  · refine (keys_map_fst ?_).trans (regionAdjusted_keys R plat genre pub)
    intro p _
    rfl

lemma region_dist_vals_nonneg (R : RegRand) (plat genre pub : String)
    (hMain : 0 ≤ R.fMain) (hSec : 0 ≤ R.fSec) (hWeak : ∀ r, 0 ≤ R.fWeak r)
    (hJit : ∀ r, 0 ≤ R.fJitter r) (hNin : ∀ r, 0 ≤ R.fNin r) :
    ∀ p ∈ region_weight_distribution R plat genre pub, 0 ≤ p.2 := by
  simp only [region_weight_distribution]
  split
  · exact REGION_WEIGHTS_vals_nonneg
  · rename_i htot
    push_neg at htot
    refine vals_nonneg_map ?_
      (regionAdjusted_vals_nonneg R plat genre pub hMain hSec hWeak hJit hNin)
    intro p hp
    exact div_nonneg hp htot.le

lemma region_dist_sum (R : RegRand) (plat genre pub : String) :
    ((region_weight_distribution R plat genre pub).map Prod.snd).sum = 1 := by
  simp only [region_weight_distribution]
  split
  · exact REGION_WEIGHTS_sum
  · rename_i htot
    push_neg at htot
    rw [List.map_map]
    have : (Prod.snd ∘ fun p : String × ℚ => (p.1, p.2 / ((regionAdjusted R plat genre pub).map Prod.snd).sum))
        = fun p : String × ℚ => p.2 / ((regionAdjusted R plat genre pub).map Prod.snd).sum := rfl
    rw [this]
    have h2 : ((regionAdjusted R plat genre pub).map
        (fun p : String × ℚ => p.2 / ((regionAdjusted R plat genre pub).map Prod.snd).sum))
        = (((regionAdjusted R plat genre pub).map Prod.snd).map
          (fun v => v / ((regionAdjusted R plat genre pub).map Prod.snd).sum)) := by
      rw [List.map_map]
      rfl
    rw [h2, sum_map_div, div_self htot.ne']

lemma region_dist_fallback (R : RegRand) (plat genre pub : String)
    (h : ((regionAdjusted R plat genre pub).map Prod.snd).sum ≤ 0) :
    region_weight_distribution R plat genre pub = REGION_WEIGHTS := by
  simp only [region_weight_distribution]
  rw [if_pos h]

lemma getD_nonneg {l : List ℝ} (h : ∀ x ∈ l, 0 ≤ x) (i : ℕ) : 0 ≤ l.getD i 0 := by
  induction l generalizing i with
  | nil => simp [List.getD]
  | cons a l ih =>
    cases i with
    | zero => simpa using h a (by simp)
    | succ j => simpa using ih (fun x hx => h x (by simp [hx])) j

lemma rawSamples_length (C : CurveRand) (months : List String) (genre pub : String) :
    (rawSamples C months genre pub).length = months.length := by
  simp [rawSamples]

lemma smooth3_length (s : List ℝ) : (smooth3 s).length = s.length := by
  simp [smooth3]

lemma compress_length (s : List ℝ) : (compress s).length = s.length := by
  simp [compress]

lemma nintendoBoost_length {months : List String} {s : List ℝ}
    (h : s.length = months.length) :
    (nintendoBoost months s).length = months.length := by
  simp [nintendoBoost, h]

lemma curveBoosted_length (C : CurveRand) (months : List String) (genre pub plat : String) :
    (curveBoosted C months genre pub plat).length = months.length := by
  simp only [curveBoosted]
  split
  · exact nintendoBoost_length
      (by rw [compress_length, smooth3_length, rawSamples_length])
  · rw [compress_length, smooth3_length, rawSamples_length]

lemma rawSamples_nonneg (C : CurveRand) (months : List String) (genre pub : String)
    (hg : ∀ i a, 0 ≤ C.gamma i a) : ∀ x ∈ rawSamples C months genre pub, 0 ≤ x := by
  intro x hx
  simp only [rawSamples, List.mem_map] at hx
  obtain ⟨i, _, rfl⟩ := hx
  exact hg _ _

lemma smooth3_nonneg {s : List ℝ} (hs : ∀ x ∈ s, 0 ≤ x) : ∀ x ∈ smooth3 s, 0 ≤ x := by
  intro x hx
  simp only [smooth3, List.mem_range, List.mem_map] at hx
  obtain ⟨i, _, rfl⟩ := hx
  have h1 := getD_nonneg hs (i - 1)
  have h2 := getD_nonneg hs i
  have h3 := getD_nonneg hs (i + 1)
  split_ifs <;> exact div_nonneg (by linarith) (by norm_num)

lemma compress_nonneg {s : List ℝ} (hs : ∀ x ∈ s, 0 ≤ x) : ∀ x ∈ compress s, 0 ≤ x := by
  intro x hx
  simp only [compress, List.mem_map] at hx
  obtain ⟨v, hv, rfl⟩ := hx
  by_cases h : (if s.length ≠ 0 then s.sum / (s.length : ℝ) else 0) ≤ 0
  · rw [if_pos h]
    exact hs v hv
  · rw [if_neg h]
    push_neg at h
    exact mul_nonneg h.le (Real.rpow_nonneg (div_nonneg (hs v hv) h.le) _)

lemma ninMonthFactor_nonneg (m : ℕ) : 0 ≤ ninMonthFactor m := by
  simp only [ninMonthFactor]
  split_ifs <;> norm_num

lemma nintendoBoost_nonneg {months : List String} {s : List ℝ} (hs : ∀ x ∈ s, 0 ≤ x) :
    ∀ x ∈ nintendoBoost months s, 0 ≤ x := by
  intro x hx
  simp only [nintendoBoost, List.mem_map] at hx
  obtain ⟨p, hp, rfl⟩ := hx
  exact mul_nonneg (hs p.2 (List.of_mem_zip hp).2) (ninMonthFactor_nonneg _)

lemma curveBoosted_nonneg (C : CurveRand) (months : List String) (genre pub plat : String)
    (hg : ∀ i a, 0 ≤ C.gamma i a) : ∀ x ∈ curveBoosted C months genre pub plat, 0 ≤ x := by
  have hc :=
    compress_nonneg (smooth3_nonneg (rawSamples_nonneg C months genre pub hg))
  simp only [curveBoosted]
  split
  · exact nintendoBoost_nonneg hc
  · exact hc

lemma generate_monthly_pattern_length (C : CurveRand) (months : List String)
    (genre pub plat : String) :
    (generate_monthly_pattern C months genre pub plat).length = months.length := by
  simp only [generate_monthly_pattern]
  split
  · rename_i h
    simp [h]
  · split
    · simp
    · simp [curveBoosted_length]

lemma generate_monthly_pattern_nonneg (C : CurveRand) (months : List String)
    (genre pub plat : String) (hg : ∀ i a, 0 ≤ C.gamma i a) :
    ∀ w ∈ generate_monthly_pattern C months genre pub plat, 0 ≤ w := by
  simp only [generate_monthly_pattern]
  split
  · simp
  · split
    · intro w hw
      rw [List.eq_of_mem_replicate hw]
      positivity
    · rename_i hn htot
      push_neg at htot
      intro w hw
      simp only [List.mem_map] at hw
      obtain ⟨v, hv, rfl⟩ := hw
      exact div_nonneg (curveBoosted_nonneg C months genre pub plat hg v hv) htot.le

lemma generate_monthly_pattern_sum (C : CurveRand) (months : List String)
    (genre pub plat : String) (h : months.length ≠ 0) :
    (generate_monthly_pattern C months genre pub plat).sum = 1 := by
  simp only [generate_monthly_pattern]
  rw [if_neg h]
  split
  · rw [List.sum_replicate, nsmul_eq_mul]
    exact mul_one_div_cancel (Nat.cast_ne_zero.2 h)
  · rename_i htot
    push_neg at htot
    rw [sum_map_div, div_self htot.ne']

lemma generate_monthly_pattern_flat (C : CurveRand) (months : List String)
    (genre pub plat : String) (h : months.length ≠ 0)
    (htot : (curveBoosted C months genre pub plat).sum ≤ 0) :
    generate_monthly_pattern C months genre pub plat =
      List.replicate months.length ((1 : ℝ) / (months.length : ℝ)) := by
  simp only [generate_monthly_pattern]
  rw [if_neg h, if_pos htot]

lemma generate_monthly_pattern_nil (C : CurveRand) (genre pub plat : String) :
    generate_monthly_pattern C [] genre pub plat = [] := by
  simp [generate_monthly_pattern]

lemma pyIntR_of_nonneg {x : ℝ} (hx : 0 ≤ x) : pyIntR x = ⌊x⌋ := if_pos hx

lemma monthlyRowsFrom_units_sum_le (u price : ℤ) (N : ℕ) (hU : 0 ≤ u)
    (ms : List String) :
    ∀ (idx : ℕ) (ws : List ℝ), (∀ w ∈ ws, 0 ≤ w) →
      (((monthlyRowsFrom u price N idx ms ws).map MonthRow.units).sum : ℝ)
        ≤ (u : ℝ) * ws.sum := by
  induction ms with
  | nil =>
    intro idx ws hws
    simp only [monthlyRowsFrom, List.map_nil, List.sum_nil, Int.cast_zero]
    exact mul_nonneg (by exact_mod_cast hU) (List.sum_nonneg hws)
  | cons ym ms ih =>
    intro idx ws hws
    cases ws with
    | nil => simp [monthlyRowsFrom]
    | cons w ws =>
      have hw : 0 ≤ w := hws w (by simp)
      have hws2 : ∀ x ∈ ws, 0 ≤ x := fun x hx => hws x (by simp [hx])
      have hUw : 0 ≤ (u : ℝ) * w := mul_nonneg (by exact_mod_cast hU) hw
      have hrest := ih (idx + 1) ws hws2
      simp only [monthlyRowsFrom, List.sum_cons]
      split_ifs with hmu
      · rw [mul_add]
        linarith
      · simp only [List.map_cons, List.sum_cons]
        rw [Int.cast_add, mul_add]
        have hfloor : ((pyIntR ((u : ℝ) * w) : ℤ) : ℝ) ≤ (u : ℝ) * w := by
          rw [pyIntR_of_nonneg hUw]
          exact Int.floor_le _
        linarith

lemma monthlyRows_units_sum_le (u price : ℤ) (months : List String) (ws : List ℝ)
    (hU : 0 ≤ u) (hws : ∀ w ∈ ws, 0 ≤ w) (hsum : ws.sum ≤ 1) :
    ((monthlyRows u price months ws).map MonthRow.units).sum ≤ u := by
  have h1 := monthlyRowsFrom_units_sum_le u price months.length hU months 0 ws hws
  have h2 : (u : ℝ) * ws.sum ≤ (u : ℝ) * 1 :=
    mul_le_mul_of_nonneg_left hsum (by exact_mod_cast hU)
  have h3 : (((monthlyRows u price months ws).map MonthRow.units).sum : ℝ) ≤ (u : ℝ) := by
    rw [monthlyRows] at *
    linarith
  exact_mod_cast h3

lemma monthlyRowsFrom_units_pos (u price : ℤ) (N : ℕ) (ms : List String) :
    ∀ (idx : ℕ) (ws : List ℝ) (r : MonthRow),
      r ∈ monthlyRowsFrom u price N idx ms ws → 0 < r.units := by
  induction ms with
  | nil =>
    intro idx ws r hr
    simp [monthlyRowsFrom] at hr
  | cons ym ms ih =>
    intro idx ws r hr
    cases ws with
    | nil => simp [monthlyRowsFrom] at hr
    | cons w ws =>
      simp only [monthlyRowsFrom] at hr
      split_ifs at hr with hmu
      · exact ih (idx + 1) ws r hr
      · rcases List.mem_cons.1 hr with rfl | hr2
        · simpa using lt_of_not_le hmu
        · exact ih (idx + 1) ws r hr2

lemma monthlyRowsFrom_spec (u price : ℤ) (N : ℕ) (ms : List String) :
    ∀ (idx : ℕ) (ws : List ℝ) (r : MonthRow), r ∈ monthlyRowsFrom u price N idx ms ws →
      ∃ (i : ℕ) (w : ℝ), idx ≤ i ∧ i < idx + ms.length ∧
        r.units = pyIntR ((u : ℝ) * w) ∧
        r.revenue = r.units * pyIntQ ((price : ℚ) * month_price_factor i N) := by
  induction ms with
  | nil =>
    intro idx ws r hr
    simp [monthlyRowsFrom] at hr
  | cons ym ms ih =>
    intro idx ws r hr
    cases ws with
    | nil => simp [monthlyRowsFrom] at hr
    | cons w ws =>
      simp only [monthlyRowsFrom] at hr
      split_ifs at hr with hmu
      · obtain ⟨i, w2, hb1, hb2, hb3, hb4⟩ := ih (idx + 1) ws r hr
        refine ⟨i, w2, by omega, ?_, hb3, hb4⟩
        simp only [List.length_cons]
        omega
      · rcases List.mem_cons.1 hr with rfl | hr2
        · refine ⟨idx, w, le_refl idx, ?_, rfl, rfl⟩
          simp only [List.length_cons]
          omega
        · obtain ⟨i, w2, hb1, hb2, hb3, hb4⟩ := ih (idx + 1) ws r hr2
          refine ⟨i, w2, by omega, ?_, hb3, hb4⟩
          simp only [List.length_cons]
          omega

lemma regionFacts_life_units_pos (pattern : String → List ℝ) (baseM : ℚ) (price : ℤ)
    (months : List String) (dist : List (String × ℚ)) :
    ∀ r ∈ (regionFacts pattern baseM price months dist).1, 0 < r.units := by
  induction dist with
  | nil =>
    intro r hr
    simp [regionFacts] at hr
  | cons p rest ih =>
    intro r hr
    simp only [regionFacts] at hr
    split_ifs at hr with hu
    · exact ih r hr
    · rcases List.mem_cons.1 hr with rfl | hr2
      · simpa using lt_of_not_le hu
      · exact ih r hr2

lemma regionFacts_month_units_pos (pattern : String → List ℝ) (baseM : ℚ) (price : ℤ)
    (months : List String) (dist : List (String × ℚ)) :
    ∀ r ∈ (regionFacts pattern baseM price months dist).2, 0 < r.units := by
  induction dist with
  | nil =>
    intro r hr
    simp [regionFacts] at hr
  | cons p rest ih =>
    intro r hr
    simp only [regionFacts] at hr
    split_ifs at hr with hu
    · exact ih r hr
    · rcases List.mem_append.1 hr with hr2 | hr2
      · exact monthlyRowsFrom_units_pos _ price months.length months 0 _ r hr2
      · exact ih r hr2

lemma pyRoundInt_le (q : ℚ) : (pyRoundInt q : ℚ) ≤ q + 1/2 := by
  have h1 := Int.floor_le q
  have h2 := Int.lt_floor_add_one q
  simp only [pyRoundInt]
  split_ifs with ha hb hc
  · linarith
  · push_cast
    linarith
  · linarith
  · have ht : q - ⌊q⌋ = 1/2 := le_antisymm (not_lt.1 hb) (not_lt.1 ha)
    push_cast
    linarith

lemma pyRound4_le (q : ℚ) : pyRound4 q ≤ q + 1/20000 := by
  have h := pyRoundInt_le (q * 10000)
  simp only [pyRound4]
  rw [div_le_iff₀ (by norm_num : (0 : ℚ) < 10000)]
  linarith

lemma pyIntQ_le_of_pos {q : ℚ} (h : 0 < pyIntQ q) : (pyIntQ q : ℚ) ≤ q := by
  simp only [pyIntQ] at h ⊢
  split_ifs at h ⊢ with h0
  · exact Int.floor_le q
  · exfalso
    have hq : 0 ≤ -q := by
      push_neg at h0
      linarith
    have h2 : 0 ≤ ⌊-q⌋ := Int.floor_nonneg.2 hq
    omega

lemma pyIntQ_eq_intCast (n : ℤ) : pyIntQ (n : ℚ) = n := by
  simp only [pyIntQ]
  split_ifs with h0
  · exact Int.floor_intCast n
  · rw [show -(n : ℚ) = ((-n : ℤ) : ℚ) by push_cast; ring, Int.floor_intCast]
    omega

lemma pyIntQ_eq_of_cast {q : ℚ} {n : ℤ} (h : q = (n : ℚ)) : pyIntQ q = n := by
  rw [h]
  exact pyIntQ_eq_intCast n

lemma pyRoundInt_eq_nearest {x : ℚ} {g : ℤ} (h1 : (g : ℚ) - 1/2 < x)
    (h2 : x < (g : ℚ) + 1/2) : pyRoundInt x = g := by
  rcases le_or_lt (g : ℚ) x with h | h
  · have hf : ⌊x⌋ = g := by
      rw [Int.floor_eq_iff]
      refine ⟨h, ?_⟩
      linarith
    simp only [pyRoundInt, hf]
    rw [if_pos]
    linarith
  · have hf : ⌊x⌋ = g - 1 := by
      rw [Int.floor_eq_iff]
      push_cast
      constructor <;> linarith
    simp only [pyRoundInt, hf]
    rw [if_neg, if_pos]
    · omega
    · push_cast
      linarith
    · push_cast
      linarith

lemma pyRound4_eq {q : ℚ} {g : ℤ} (h1 : (g : ℚ) - 1/2 < q * 10000)
    (h2 : q * 10000 < (g : ℚ) + 1/2) : pyRound4 q = (g : ℚ) / 10000 := by
  simp only [pyRound4]
  rw [pyRoundInt_eq_nearest h1 h2]

lemma lifetimeRows_nil (baseM : ℚ) (price : ℤ) : lifetimeRows baseM price [] = [] := rfl

lemma lifetimeRows_cons (baseM : ℚ) (price : ℤ) (p : String × ℚ)
    (rest : List (String × ℚ)) :
    lifetimeRows baseM price (p :: rest) =
      if pyIntQ (pyRound4 (baseM * p.2) * 1000000) ≤ 0 then lifetimeRows baseM price rest
      else ⟨p.1, pyRound4 (baseM * p.2), pyIntQ (pyRound4 (baseM * p.2) * 1000000),
        pyIntQ (pyRound4 (baseM * p.2) * 1000000) * price⟩ :: lifetimeRows baseM price rest := by
  simp only [lifetimeRows, List.filterMap_cons]
  split_ifs <;> rfl

lemma lifetimeRows_units_sum_le (baseM : ℚ) (price : ℤ) (hb : 0 ≤ baseM)
    (dist : List (String × ℚ)) (hd : ∀ p ∈ dist, 0 ≤ p.2) :
    (((lifetimeRows baseM price dist).map LifeRow.units).sum : ℚ)
      ≤ baseM * 1000000 * ((dist.map Prod.snd).sum) + 50 * dist.length := by
  induction dist with
  | nil => simp [lifetimeRows]
  | cons p rest ih =>
    have hp : 0 ≤ p.2 := hd p (by simp)
    have hrest := ih (fun x hx => hd x (by simp [hx]))
    have hBp : 0 ≤ baseM * 1000000 * p.2 :=
      mul_nonneg (mul_nonneg hb (by norm_num)) hp
    have expand : baseM * 1000000 * ((p.2 :: (rest.map Prod.snd) : List ℚ).sum)
        = baseM * 1000000 * p.2 + baseM * 1000000 * ((rest.map Prod.snd).sum) := by
      rw [List.sum_cons]
      ring
    have hlen : ((rest.length + 1 : ℕ) : ℚ) = (rest.length : ℚ) + 1 := by
      push_cast
      ring
    rw [lifetimeRows_cons]
    simp only [List.map_cons, List.length_cons]
    split_ifs with hu
    · rw [expand, hlen]
      linarith
    · have hu2 : 0 < pyIntQ (pyRound4 (baseM * p.2) * 1000000) := lt_of_not_le hu
      have h3 : ((pyIntQ (pyRound4 (baseM * p.2) * 1000000) : ℤ) : ℚ)
          ≤ pyRound4 (baseM * p.2) * 1000000 := pyIntQ_le_of_pos hu2
      have h4 : pyRound4 (baseM * p.2) ≤ baseM * p.2 + 1/20000 := pyRound4_le _
      have h5 : pyRound4 (baseM * p.2) * 1000000 ≤ baseM * 1000000 * p.2 + 50 := by
        nlinarith
      rw [expand, hlen]
      simp only [List.map_cons, List.sum_cons]
      rw [Int.cast_add]
      linarith

lemma biasedCandidates_ne_nil (genre pub : String) :
    biasedCandidates genre pub ≠ [] := by
  simp only [biasedCandidates]
  split
  · simp [REGION_NAMES, REGION_WEIGHTS]
  · rename_i h
    intro hc
    rw [hc] at h
    simp at h

lemma isNin_empty : isNintendoTitle "" "" = false := rfl

lemma cexAdj_raw : regionAdjusted cexReg "" "" "" =
    [("Hokkaido", (0.04 : ℚ) * (1/2)), ("Tohoku", (0.06 : ℚ) * 1),
     ("Kanto", (0.35 : ℚ) * (5/2)), ("Chubu", (0.17 : ℚ) * 1),
     ("Kansai", (0.18 : ℚ) * 1), ("Chugoku", (0.06 : ℚ) * 1),
     ("Shikoku", (0.04 : ℚ) * 1), ("Kyushu", (0.10 : ℚ) * 1)] := rfl

lemma cexAdj_eq : regionAdjusted cexReg "" "" "" =
    [("Hokkaido", 1/50), ("Tohoku", 3/50), ("Kanto", 7/8), ("Chubu", 17/100),
     ("Kansai", 9/50), ("Chugoku", 3/50), ("Shikoku", 1/25), ("Kyushu", 1/10)] := by
  rw [cexAdj_raw]
  norm_num

lemma cex_dist_eq : region_weight_distribution cexReg "" "" "" = cexDist := by
  simp only [region_weight_distribution, cexAdj_eq]
  norm_num [cexDist]

lemma cex_life_units :
    ((lifetimeRows 1 6000 cexDist).map LifeRow.units).sum = 1000100 := by
  have hH : pyRound4 ((1 : ℚ) * (4/301)) = ((133 : ℤ) : ℚ) / 10000 :=
    pyRound4_eq (by norm_num) (by norm_num)
  have hHu : pyIntQ (((133 : ℤ) : ℚ) / 10000 * 1000000) = (13300 : ℤ) :=
    pyIntQ_eq_of_cast (by push_cast; norm_num)
  have hT : pyRound4 ((1 : ℚ) * (12/301)) = ((399 : ℤ) : ℚ) / 10000 :=
    pyRound4_eq (by norm_num) (by norm_num)
  have hTu : pyIntQ (((399 : ℤ) : ℚ) / 10000 * 1000000) = (39900 : ℤ) :=
    pyIntQ_eq_of_cast (by push_cast; norm_num)
  have hK : pyRound4 ((1 : ℚ) * (175/301)) = ((5814 : ℤ) : ℚ) / 10000 :=
    pyRound4_eq (by norm_num) (by norm_num)
  have hKu : pyIntQ (((5814 : ℤ) : ℚ) / 10000 * 1000000) = (581400 : ℤ) :=
    pyIntQ_eq_of_cast (by push_cast; norm_num)
  have hC : pyRound4 ((1 : ℚ) * (34/301)) = ((1130 : ℤ) : ℚ) / 10000 :=
    pyRound4_eq (by norm_num) (by norm_num)
  have hCu : pyIntQ (((1130 : ℤ) : ℚ) / 10000 * 1000000) = (113000 : ℤ) :=
    pyIntQ_eq_of_cast (by push_cast; norm_num)
  have hKs : pyRound4 ((1 : ℚ) * (36/301)) = ((1196 : ℤ) : ℚ) / 10000 :=
    pyRound4_eq (by norm_num) (by norm_num)
  have hKsu : pyIntQ (((1196 : ℤ) : ℚ) / 10000 * 1000000) = (119600 : ℤ) :=
    pyIntQ_eq_of_cast (by push_cast; norm_num)
  have hS : pyRound4 ((1 : ℚ) * (8/301)) = ((266 : ℤ) : ℚ) / 10000 :=
    pyRound4_eq (by norm_num) (by norm_num)
  have hSu : pyIntQ (((266 : ℤ) : ℚ) / 10000 * 1000000) = (26600 : ℤ) :=
    pyIntQ_eq_of_cast (by push_cast; norm_num)
  have hKy : pyRound4 ((1 : ℚ) * (20/301)) = ((664 : ℤ) : ℚ) / 10000 :=
    pyRound4_eq (by norm_num) (by norm_num)
  have hKyu : pyIntQ (((664 : ℤ) : ℚ) / 10000 * 1000000) = (66400 : ℤ) :=
    pyIntQ_eq_of_cast (by push_cast; norm_num)
  simp only [cexDist, lifetimeRows_cons, lifetimeRows_nil, hH, hHu, hT, hTu, hK, hKu,
    hC, hCu, hKs, hKsu, hS, hSu, hKy, hKyu]
  norm_num

/-- Claim C1: for every seed row that produces a lifetime row for a
fixed (title, platform, region), the sum of the stored monthly units
over the month window is at most the lifetime units `u` for that tuple:
per-month `int()` truncation may lose units but never gain them. -/
theorem monthly_units_sum_le_lifetime_units (C : CurveRand) (months : List String)
    (genre pub plat : String) (u price : ℤ)
    (hg : ∀ i a, 0 ≤ C.gamma i a) (hU : 0 ≤ u) :
    ((monthlyRows u price months
        (generate_monthly_pattern C months genre pub plat)).map MonthRow.units).sum ≤ u := by
  rcases eq_or_ne months.length 0 with h | h
  · have hnil : months = [] := List.length_eq_zero.1 h
    subst hnil
    rw [generate_monthly_pattern_nil]
    simpa [monthlyRows, monthlyRowsFrom] using hU
  · exact monthlyRows_units_sum_le u price months _ hU
      (generate_monthly_pattern_nonneg C months genre pub plat hg)
      (le_of_eq (generate_monthly_pattern_sum C months genre pub plat h))

/-- Witness for C1 at concrete draws. -/
theorem monthly_units_sum_le_lifetime_units_witness :
    (∀ i a, (0 : ℝ) ≤ witCurve.gamma i a) ∧ (0 : ℤ) ≤ 100000 ∧
    ((monthlyRows 100000 6800 ["2023-01"]
        (generate_monthly_pattern witCurve ["2023-01"] "Action" "Sony" "PS2")).map
      MonthRow.units).sum ≤ 100000 :=
  ⟨fun i a => by norm_num [witCurve], by norm_num,
    monthly_units_sum_le_lifetime_units witCurve ["2023-01"] "Action" "Sony" "PS2"
      100000 6800 (fun i a => by norm_num [witCurve]) (by norm_num)⟩

/-- Counterexample to claim C2 as stated: with every random factor
inside its `random.uniform` range (main region Kanto at 2.5, Hokkaido
suppressed at 0.5, jitter 1 elsewhere, no secondary, not Nintendo) and
adjusted national volume 1 (million), the stored per-region lifetime
units sum to 1,000,100, strictly more than the 1,000,000 units of the
adjusted national volume: `round(.., 4)` on the region millions rounds
up before the unit conversion truncates. -/
theorem lifetime_units_sum_exceeds_volume :
    (2 ≤ cexReg.fMain ∧ cexReg.fMain ≤ 3) ∧
    (∀ r, 3/10 ≤ cexReg.fWeak r ∧ cexReg.fWeak r ≤ 7/10) ∧
    (∀ r, 4/5 ≤ cexReg.fJitter r ∧ cexReg.fJitter r ≤ 6/5) ∧
    ((lifetimeRows 1 6000 (region_weight_distribution cexReg "" "" "")).map
        LifeRow.units).sum = 1000100 ∧
    ¬ ((((lifetimeRows 1 6000 (region_weight_distribution cexReg "" "" "")).map
        LifeRow.units).sum : ℚ) ≤ (1 : ℚ) * 1000000) := by
  refine ⟨⟨by norm_num [cexReg], by norm_num [cexReg]⟩,
    fun r => ⟨by norm_num [cexReg], by norm_num [cexReg]⟩,
    fun r => ⟨by norm_num [cexReg], by norm_num [cexReg]⟩, ?_, ?_⟩
  · rw [cex_dist_eq]
    exact cex_life_units
  · rw [cex_dist_eq, cex_life_units]
    norm_num

/-- Claim C2 (amended): the sum over the 8 regions of stored lifetime
units is at most the adjusted national volume in units plus 400 (each
region's rounding to 4 decimal places of a million can add at most 50
units before truncation). -/
theorem lifetime_units_sum_le_volume_plus_rounding (R : RegRand) (plat genre pub : String)
    (baseM : ℚ) (price : ℤ) (hb : 0 ≤ baseM)
    (hMain : 0 ≤ R.fMain) (hSec : 0 ≤ R.fSec) (hWeak : ∀ r, 0 ≤ R.fWeak r)
    (hJit : ∀ r, 0 ≤ R.fJitter r) (hNin : ∀ r, 0 ≤ R.fNin r) :
    (((lifetimeRows baseM price (region_weight_distribution R plat genre pub)).map
        LifeRow.units).sum : ℚ) ≤ baseM * 1000000 + 400 := by
  have hlen : (region_weight_distribution R plat genre pub).length = 8 := by
    have h := congrArg List.length (region_dist_keys R plat genre pub)
    simpa [REGION_NAMES, REGION_WEIGHTS] using h
  have hsum := region_dist_sum R plat genre pub
  have h := lifetimeRows_units_sum_le baseM price hb _
    (region_dist_vals_nonneg R plat genre pub hMain hSec hWeak hJit hNin)
  rw [hsum, hlen] at h
  have h8 : ((8 : ℕ) : ℚ) = 8 := by norm_num
  rw [h8, mul_one] at h
  linarith

/-- Witness for the amended C2 at concrete draws. -/
theorem lifetime_units_sum_le_volume_plus_rounding_witness :
    (0 : ℚ) ≤ 1 ∧
    (((lifetimeRows 1 6000 (region_weight_distribution cexReg "" "" "")).map
        LifeRow.units).sum : ℚ) ≤ (1 : ℚ) * 1000000 + 400 :=
  ⟨by norm_num,
    lifetime_units_sum_le_volume_plus_rounding cexReg "" "" "" 1 6000 (by norm_num)
      (by norm_num [cexReg]) (by norm_num [cexReg]) (fun r => by norm_num [cexReg])
      (fun r => by norm_num [cexReg]) (fun r => by norm_num [cexReg])⟩

/-- Claim C3: the monthly curve synthesizer returns a list of exactly N
non-negative weights summing to 1 for N ≥ 1 (in exact arithmetic: sum
exactly 1, hence within 1e-6), returns the flat 1/N distribution when
the composed signal's total is ≤ 0, and returns `[]` for N = 0. -/
theorem monthly_pattern_contract (C : CurveRand) (months : List String)
    (genre pub plat : String) (hg : ∀ i a, 0 ≤ C.gamma i a) :
    (generate_monthly_pattern C months genre pub plat).length = months.length ∧
    (∀ w ∈ generate_monthly_pattern C months genre pub plat, 0 ≤ w) ∧
    (months.length ≠ 0 → (generate_monthly_pattern C months genre pub plat).sum = 1) ∧
    (months = [] → generate_monthly_pattern C months genre pub plat = []) ∧
    (months.length ≠ 0 → (curveBoosted C months genre pub plat).sum ≤ 0 →
      generate_monthly_pattern C months genre pub plat =
        List.replicate months.length ((1 : ℝ) / (months.length : ℝ))) := by
  refine ⟨generate_monthly_pattern_length C months genre pub plat,
    generate_monthly_pattern_nonneg C months genre pub plat hg,
    fun h => generate_monthly_pattern_sum C months genre pub plat h,
    fun h => ?_,
    fun h htot => generate_monthly_pattern_flat C months genre pub plat h htot⟩
  subst h
  exact generate_monthly_pattern_nil C genre pub plat

/-- Witness for C3 at concrete draws. -/
theorem monthly_pattern_contract_witness :
    (∀ i a, (0 : ℝ) ≤ witCurve.gamma i a) ∧
    (generate_monthly_pattern witCurve ["2023-01"] "Action" "Sony" "PS2").length
      = (["2023-01"] : List String).length :=
  ⟨fun i a => by norm_num [witCurve],
    (monthly_pattern_contract witCurve ["2023-01"] "Action" "Sony" "PS2"
      (fun i a => by norm_num [witCurve])).1⟩

/-- Claim C4: the region weight sampler returns only non-negative
weights summing to exactly 1 (hence within 1e-6); when the adjusted
total is ≤ 0 it returns the baseline unchanged; and the candidate pool
fed to `random.choice` is never empty, so the function cannot raise,
even on empty inputs. -/
theorem region_weight_contract (R : RegRand) (plat genre pub : String)
    (hMain : 0 ≤ R.fMain) (hSec : 0 ≤ R.fSec) (hWeak : ∀ r, 0 ≤ R.fWeak r)
    (hJit : ∀ r, 0 ≤ R.fJitter r) (hNin : ∀ r, 0 ≤ R.fNin r) :
    (∀ p ∈ region_weight_distribution R plat genre pub, 0 ≤ p.2) ∧
    ((region_weight_distribution R plat genre pub).map Prod.snd).sum = 1 ∧
    (((regionAdjusted R plat genre pub).map Prod.snd).sum ≤ 0 →
      region_weight_distribution R plat genre pub = REGION_WEIGHTS) ∧
    biasedCandidates genre pub ≠ [] :=
  ⟨region_dist_vals_nonneg R plat genre pub hMain hSec hWeak hJit hNin,
    region_dist_sum R plat genre pub,
    region_dist_fallback R plat genre pub,
    biasedCandidates_ne_nil genre pub⟩

/-- Witness for C4 at concrete draws and empty name inputs. -/
theorem region_weight_contract_witness :
    (0 : ℚ) ≤ cexReg.fMain ∧
    ((region_weight_distribution cexReg "" "" "").map Prod.snd).sum = 1 :=
  ⟨by norm_num [cexReg],
    (region_weight_contract cexReg "" "" "" (by norm_num [cexReg]) (by norm_num [cexReg])
      (fun r => by norm_num [cexReg]) (fun r => by norm_num [cexReg])
      (fun r => by norm_num [cexReg])).2.1⟩

/-- Claim C5: every stored monthly fact row has revenue equal to its
units times `int(price * month_price_factor i N)` — the title price
scaled by the month discount factor of its window position, truncated
to integer yen. -/
theorem monthly_revenue_eq_units_mul_discounted_price (u price : ℤ)
    (months : List String) (ws : List ℝ) :
    ∀ r ∈ monthlyRows u price months ws, ∃ (i : ℕ) (w : ℝ), i < months.length ∧
      r.units = pyIntR ((u : ℝ) * w) ∧
      r.revenue = r.units * pyIntQ ((price : ℚ) * month_price_factor i months.length) := by
  intro r hr
  obtain ⟨i, w, hb1, hb2, hb3, hb4⟩ :=
    monthlyRowsFrom_spec u price months.length months 0 ws r hr
  exact ⟨i, w, by omega, hb3, hb4⟩

/-- Witness for C5 on a one-month window. -/
theorem monthly_revenue_eq_units_mul_discounted_price_witness :
    ((⟨"2023-01", 100, 50000⟩ : MonthRow) ∈ monthlyRows 100 500 ["2023-01"] [(1 : ℝ)]) ∧
    (∃ (i : ℕ) (w : ℝ), i < (["2023-01"] : List String).length ∧
      (⟨"2023-01", 100, 50000⟩ : MonthRow).units = pyIntR ((100 : ℝ) * w) ∧
      (⟨"2023-01", 100, 50000⟩ : MonthRow).revenue =
        (⟨"2023-01", 100, 50000⟩ : MonthRow).units *
          pyIntQ ((500 : ℚ) * month_price_factor i (["2023-01"] : List String).length)) := by
  have hmu : pyIntR (((100 : ℤ) : ℝ) * 1) = 100 := by
    rw [pyIntR_of_nonneg (by norm_num)]
    norm_num
  have hpq : pyIntQ (((500 : ℤ) : ℚ) * month_price_factor 0 1) = 500 := by
    have h1 : month_price_factor 0 1 = 1 := rfl
    rw [h1]
    exact pyIntQ_eq_of_cast (by push_cast; ring)
  have hmem : (⟨"2023-01", 100, 50000⟩ : MonthRow)
      ∈ monthlyRows 100 500 ["2023-01"] [(1 : ℝ)] := by
    simp only [monthlyRows, List.length_cons, List.length_nil, monthlyRowsFrom, hmu, hpq]
    rw [if_neg (by norm_num)]
    norm_num
  exact ⟨hmem,
    monthly_revenue_eq_units_mul_discounted_price 100 500 ["2023-01"] [(1 : ℝ)] _ hmem⟩

/-- Claim C6: the month price factor is 1.1 − 0.5·(i/(N−1)) for N ≥ 2
and the constant 1 for N ≤ 1; for the 36-month window it is 1.1 at
index 0 and 0.6 at index 35. -/
theorem month_price_factor_spec :
    (∀ i N, 2 ≤ N → month_price_factor i N = 1.1 - 0.5 * ((i : ℚ) / ((N : ℚ) - 1))) ∧
    (∀ i N, N ≤ 1 → month_price_factor i N = 1) ∧
    month_price_factor 0 36 = 1.1 ∧ month_price_factor 35 36 = 0.6 := by
  refine ⟨fun i N h => ?_, fun i N h => ?_, ?_, ?_⟩
  · unfold month_price_factor
    rw [if_neg (by omega)]
  · unfold month_price_factor
    rw [if_pos h]
  · unfold month_price_factor
    rw [if_neg (by omega)]
    norm_num
  · unfold month_price_factor
    rw [if_neg (by omega)]
    norm_num

/-- Witness for C6 at the start of the 36-month window. -/
theorem month_price_factor_spec_witness :
    2 ≤ 36 ∧ month_price_factor 0 36 = 1.1 - 0.5 * ((0 : ℚ) / ((36 : ℚ) - 1)) :=
  ⟨by norm_num, month_price_factor_spec.1 0 36 (by norm_num)⟩

/-- Claim C7: the base national volume is the JP figure when strictly
positive, else the global figure; when that resolved volume is still
non-positive the title emits no fact rows and no error; and JP volume 0
with global volume 1.2 resolves to 1.2. -/
theorem base_volume_fallback_spec (T : TitleRand) (months : List String) (row : SeedRow)
    (y : ℤ) (hy : row.year = .val y) :
    (∀ jp glob : ℚ, (0 < jp → resolveBase jp glob = jp) ∧
      (¬ 0 < jp → resolveBase jp glob = glob)) ∧
    (resolveBase (parse_float row.jp) (parse_float row.globalSales) ≤ 0 →
      titleFacts T months row = .ok ([], [])) ∧
    resolveBase 0 1.2 = 1.2 := by
  refine ⟨fun jp glob => ⟨fun h => ?_, fun h => ?_⟩, fun hb => ?_, ?_⟩
  · simp only [resolveBase]
    rw [if_pos h]
  · simp only [resolveBase]
    rw [if_neg h]
  · simp only [titleFacts, hy, parseYear]
    rw [if_pos hb]
  · simp only [resolveBase]
    norm_num

/-- Witness for C7: a row with JP volume 0 and global volume −1 is
skipped without error. -/
theorem base_volume_fallback_spec_witness :
    cexRow.year = YearField.val 2006 ∧
    resolveBase (parse_float cexRow.jp) (parse_float cexRow.globalSales) ≤ 0 ∧
    titleFacts witTitle [] cexRow = .ok ([], []) := by
  refine ⟨rfl, by norm_num [cexRow, parse_float, resolveBase], ?_⟩
  exact (base_volume_fallback_spec witTitle [] cexRow 2006 rfl).2.1
    (by norm_num [cexRow, parse_float, resolveBase])

/-- Claim C8: no stored fact row, lifetime or monthly, has units ≤ 0:
regions and months whose computed units are non-positive are omitted
entirely. -/
theorem no_zero_unit_rows (pattern : String → List ℝ) (baseM : ℚ) (price : ℤ)
    (months : List String) (dist : List (String × ℚ)) :
    (∀ r ∈ (regionFacts pattern baseM price months dist).1, 0 < r.units) ∧
    (∀ r ∈ (regionFacts pattern baseM price months dist).2, 0 < r.units) :=
  ⟨regionFacts_life_units_pos pattern baseM price months dist,
    regionFacts_month_units_pos pattern baseM price months dist⟩

/-- Witness for C8 on a one-region run. -/
theorem no_zero_unit_rows_witness :
    ((⟨"Kanto", 1, 1000000, 0⟩ : LifeRow)
      ∈ (regionFacts (fun _ => []) 1 0 [] [("Kanto", (1 : ℚ))]).1) ∧
    0 < (⟨"Kanto", 1, 1000000, 0⟩ : LifeRow).units := by
  have hm : pyRound4 ((1 : ℚ) * 1) = ((10000 : ℤ) : ℚ) / 10000 :=
    pyRound4_eq (by norm_num) (by norm_num)
  have hm1 : pyRound4 ((1 : ℚ) * 1) = 1 := by
    rw [hm]
    norm_num
  have hu : pyIntQ ((1 : ℚ) * 1000000) = (1000000 : ℤ) :=
    pyIntQ_eq_of_cast (by norm_num)
  have hmem : (⟨"Kanto", 1, 1000000, 0⟩ : LifeRow)
      ∈ (regionFacts (fun _ => []) 1 0 [] [("Kanto", (1 : ℚ))]).1 := by
    simp only [regionFacts, hm1, hu]
    rw [if_neg (by norm_num)]
    norm_num
  exact ⟨hmem, (no_zero_unit_rows (fun _ => []) 1 0 [] [("Kanto", (1 : ℚ))]).1 _ hmem⟩

/-- Claim C9: a missing or unparseable sales figure is parsed as 0.0
and never aborts a row with a well-formed year, while a malformed year
field raises and aborts the batch. -/
theorem malformed_sales_never_aborts (T : TitleRand) (months : List String) (row : SeedRow)
    (y : ℤ) (hy : row.year = .val y) :
    parse_float .missing = 0 ∧ (∀ s, parse_float (.malformed s) = 0) ∧
    (∃ out, titleFacts T months row = .ok out) ∧
    (∀ row2 : SeedRow, row2.year = .malformed →
      titleFacts T months row2 = .error "ValueError") := by
  refine ⟨rfl, fun s => rfl, ?_, fun row2 h2 => ?_⟩
  · simp only [titleFacts, hy, parseYear]
    by_cases hb : resolveBase (parse_float row.jp) (parse_float row.globalSales) ≤ 0
    · exact ⟨([], []), by rw [if_pos hb]⟩
    · exact ⟨_, by rw [if_neg hb]⟩
  · simp only [titleFacts, h2, parseYear]

/-- Witness for C9: a malformed JP-sales string plus a missing global
key do not abort, while a malformed year does. -/
theorem malformed_sales_never_aborts_witness :
    malRow.year = YearField.val 2001 ∧
    parse_float SalesField.missing = 0 ∧
    (∃ out, titleFacts witTitle [] malRow = Except.ok out) ∧
    titleFacts witTitle [] badYearRow = Except.error "ValueError" := by
  have h := malformed_sales_never_aborts witTitle [] malRow 2001 rfl
  exact ⟨rfl, h.1, h.2.2.1, h.2.2.2 badYearRow rfl⟩

/-- Claim C10: the region weight sampler's output always has exactly
the 8 baseline region names as its key list, in order, on both the
normalised and the fallback branch. -/
theorem region_weight_keys_fixed (R : RegRand) (plat genre pub : String) :
    (region_weight_distribution R plat genre pub).map Prod.fst =
      ["Hokkaido", "Tohoku", "Kanto", "Chubu", "Kansai", "Chugoku", "Shikoku", "Kyushu"] :=
  (region_dist_keys R plat genre pub).trans rfl

end BuildDb
